import Mathlib

/-!
Shallow embedding of the mindwrite EPD stream firmware core
(`mindwrite_epd_stream.cpp`, `crc32.cpp`, `usb_frame_receiver.cpp`,
`epd/ssd1683_gdey0579t93.cpp`).

Bytes are `Nat` values in `[0, 256)`; machine-integer casts are modelled as
`% 2 ^ w` where the C code truncates.  The SPI side effects of the panel
driver are modelled as a trace of `SpiOp` operations; serial output and SPI
traffic of the application loop are interleaved in a single `Ev` event list,
in program order.  Timeouts and BUSY polling are real-time behaviour and are
outside the model: `wait_idle` appears as the single trace event `waitIdle`.
-/

/-! ### Panel geometry constants (ssd1683_gdey0579t93.h / mindwrite_epd_stream.cpp) -/

def WIDTH : Nat := 792
def HEIGHT : Nat := 272
def BYTES_PER_ROW : Nat := (WIDTH + 7) / 8
def FRAME_BYTES : Nat := BYTES_PER_ROW * HEIGHT
def MASTER_COLS : Nat := 50
def SLAVE_COLS : Nat := 50
def SLAVE_START : Nat := 49
def FLAG_FORCE_FULL : Nat := 0x01
def FLAG_RECT : Nat := 0x02

/-! ### CRC-32 implementations

Three implementations exist in the repository; each is embedded separately,
following its own source text. -/

/-- `crc32_update` from `crc32.cpp`: per-byte update, ternary formulation
`crc = (crc & 1) ? (crc >> 1) ^ 0xEDB88320 : (crc >> 1)` iterated 8 times
after `crc ^= data`. -/
def crc32_update (crc : Nat) (data : Nat) : Nat :=
  (List.range 8).foldl
    (fun c _ => if c &&& 1 = 1 then (c >>> 1) ^^^ 0xEDB88320 else c >>> 1)
    (crc ^^^ data)

/-- `crc32_compute` from `crc32.cpp` (final `crc ^ 0xFFFFFFFF`). -/
def crc32_compute (l : List Nat) : Nat :=
  (l.foldl crc32_update 0xFFFFFFFF) ^^^ 0xFFFFFFFF

/-- Inner-loop body of `crc32_ieee` in `mindwrite_epd_stream.cpp`:
`mask = -(crc & 1u); crc = (crc >> 1) ^ (0xEDB88320u & mask)`.
The `uint32_t` negation `-(crc & 1u)` is `(2^32 - (crc & 1)) % 2^32`. -/
def crc32_ieee_step (c : Nat) : Nat :=
  (c >>> 1) ^^^ (0xEDB88320 &&& ((2 ^ 32 - (c &&& 1)) % 2 ^ 32))

/-- `crc32_ieee` from `mindwrite_epd_stream.cpp`: init `0xFFFFFFFF`, per byte
XOR then 8 mask-form iterations, final `~crc` (i.e. XOR `0xFFFFFFFF`). -/
def crc32_ieee (l : List Nat) : Nat :=
  (l.foldl (fun crc b => (List.range 8).foldl (fun c _ => crc32_ieee_step c) (crc ^^^ b))
    0xFFFFFFFF) ^^^ 0xFFFFFFFF

/-- `USBFrameReceiver::crc32_update` from `usb_frame_receiver.cpp`
(same mask formulation as `crc32_ieee`). -/
def usb_crc32_update (crc : Nat) (data : Nat) : Nat :=
  (List.range 8).foldl (fun c _ => crc32_ieee_step c) (crc ^^^ data)

/-- `USBFrameReceiver::crc32_finalize`: `~crc` on `uint32_t`. -/
def usb_crc32_finalize (crc : Nat) : Nat := crc ^^^ 0xFFFFFFFF

/-- The CRC of a byte string as `USBFrameReceiver` computes it: fold
`crc32_update` from `0xFFFFFFFF` over the bytes, then `crc32_finalize`. -/
def usb_crc32 (l : List Nat) : Nat :=
  usb_crc32_finalize (l.foldl usb_crc32_update 0xFFFFFFFF)

/-- Modelled from the spec (§4.1): reflected IEEE CRC-32 reference.
Initial `0xFFFFFFFF`; per byte: XOR, then 8 times
`crc = (crc>>1) XOR (0xEDB88320 AND -(crc AND 1))`; final XOR `0xFFFFFFFF`. -/
def crc32_spec (l : List Nat) : Nat :=
  (l.foldl
    (fun crc b =>
      (List.range 8).foldl
        (fun c _ => (c >>> 1) ^^^ (0xEDB88320 &&& ((2 ^ 32 - (c &&& 1)) % 2 ^ 32)))
        (crc ^^^ b))
    0xFFFFFFFF) ^^^ 0xFFFFFFFF

/-! ### Little-endian decoding / encoding -/

/-- `u32le` from `mindwrite_epd_stream.cpp`:
`b[0] | b[1]<<8 | b[2]<<16 | b[3]<<24`. -/
def u32le (b0 b1 b2 b3 : Nat) : Nat :=
  b0 ||| (b1 <<< 8) ||| (b2 <<< 16) ||| (b3 <<< 24)

/-- `u16le` from `mindwrite_epd_stream.cpp`: `b[0] | b[1]<<8`. -/
def u16le (b0 b1 : Nat) : Nat := b0 ||| (b1 <<< 8)

/-- Host-side little-endian encoding of a 16-bit value (wire format §6.1). -/
def le2 (n : Nat) : List Nat := [n % 2 ^ 8, n / 2 ^ 8 % 2 ^ 8]

/-- Host-side little-endian encoding of a 32-bit value (wire format §6.1). -/
def le4 (n : Nat) : List Nat :=
  [n % 2 ^ 8, n / 2 ^ 8 % 2 ^ 8, n / 2 ^ 16 % 2 ^ 8, n / 2 ^ 24 % 2 ^ 8]

/-! ### Frame parser (main loop of `mindwrite_epd_stream.cpp`, lines 120-165)

The parser consumes one byte per step.  `Sync` is the 4-byte sliding window
`uint8_t sync[4]`; the remaining phases accumulate the exact number of bytes
the code reads with `read_exact` (timeouts are real-time and not modelled:
every byte that arrives is processed identically). -/

structure Sync where
  s0 : Nat
  s1 : Nat
  s2 : Nat
  s3 : Nat
deriving DecidableEq, Repr

/-- `sync[0]=sync[1]; sync[1]=sync[2]; sync[2]=sync[3]; sync[3]=c`. -/
def shiftIn (s : Sync) (b : Nat) : Sync := ⟨s.s1, s.s2, s.s3, b⟩

/-- `sync[0]=='M' && sync[1]=='W' && sync[2]=='F' && sync[3]=='1'`. -/
def isMagic (s : Sync) : Bool :=
  s.s0 = 77 && s.s1 = 87 && s.s2 = 70 && s.s3 = 49

inductive PState where
  | seekMagic
  | readLen (acc : List Nat)
  | readPayload (len : Nat) (acc : List Nat)
  | readCRC (payload : List Nat) (acc : List Nat)
deriving DecidableEq, Repr

structure Parser where
  sync : Sync
  st : PState
deriving DecidableEq, Repr

/-- One byte of parser progress; the optional result is a validated payload
delivered to the application loop. -/
def pstep (p : Parser) (b : Nat) : Parser × Option (List Nat) :=
  match p.st with
  | .seekMagic =>
    let s := shiftIn p.sync b
    if isMagic s then (⟨s, .readLen []⟩, none) else (⟨s, .seekMagic⟩, none)
  | .readLen acc =>
    let acc := acc ++ [b]
    if acc.length = 4 then
      let len := u32le (acc.getD 0 0) (acc.getD 1 0) (acc.getD 2 0) (acc.getD 3 0)
      if len = 0 ∨ len > FRAME_BYTES + 9 then (⟨p.sync, .seekMagic⟩, none)
      else (⟨p.sync, .readPayload len []⟩, none)
    else (⟨p.sync, .readLen acc⟩, none)
  | .readPayload len acc =>
    let acc := acc ++ [b]
    if acc.length = len then (⟨p.sync, .readCRC acc []⟩, none)
    else (⟨p.sync, .readPayload len acc⟩, none)
  | .readCRC payload acc =>
    let acc := acc ++ [b]
    if acc.length = 4 then
      if u32le (acc.getD 0 0) (acc.getD 1 0) (acc.getD 2 0) (acc.getD 3 0) =
          crc32_ieee payload then
        (⟨p.sync, .seekMagic⟩, some payload)
      else (⟨p.sync, .seekMagic⟩, none)
    else (⟨p.sync, .readCRC payload acc⟩, none)

/-- One fold step of `prun`: advance the parser, append any delivered
payload to the output list. -/
def prunStep (acc : Parser × List (List Nat)) (b : Nat) : Parser × List (List Nat) :=
  ((pstep acc.1 b).1, acc.2 ++ (pstep acc.1 b).2.toList)

/-- Run the parser over an input byte list, collecting delivered payloads. -/
def prun (p : Parser) (input : List Nat) : Parser × List (List Nat) :=
  input.foldl prunStep (p, [])

/-- Boot state: `uint8_t sync[4] = {0,0,0,0}`, seeking magic. -/
def pInit : Parser := ⟨⟨0, 0, 0, 0⟩, .seekMagic⟩

/-! ### SPI trace model of the panel driver -/

inductive SpiOp where
  | cmd (b : Nat)
  | data (b : Nat)
  | waitIdle
deriving DecidableEq, Repr

/-- Events of the application loop: SPI operations and serial output bytes,
in program order. -/
inductive Ev where
  | spi (op : SpiOp)
  | ser (b : Nat)
deriving DecidableEq, Repr

/-- The serial bytes of an event trace. -/
def serOf (l : List Ev) : List Nat :=
  l.filterMap fun e => match e with | .ser b => some b | .spi _ => none

/-- Concatenation of `f c` over a column list (a C `for` loop emitting a
block per column). -/
def catMap {α : Type} (cols : List Nat) (f : Nat → List α) : List α :=
  cols.foldr (fun c acc => f c ++ acc) []

/-- Columns of `for (gcol = a; gcol <= b; ++gcol)`: `[a, …, b]`
(empty when `b < a`). -/
def colRange (a b : Nat) : List Nat := (List.range (b + 1 - a)).map (a + ·)

/-- Rows of `for (yy = y_bottom; yy >= y_top; --yy)`: `[b, b-1, …, a]`
(empty when `b < a`). -/
def rowsDesc (a b : Nat) : List Nat := (List.range (b + 1 - a)).map (fun i => b - i)

/-- `bitrev8_` from `ssd1683_gdey0579t93.cpp` (each step truncated to
`uint8_t`). -/
def bitrev8_ (x : Nat) : Nat :=
  let x := ((x >>> 4) ||| (x <<< 4)) % 2 ^ 8
  let x := (((x &&& 0xCC) >>> 2) ||| ((x &&& 0x33) <<< 2)) % 2 ^ 8
  (((x &&& 0xAA) >>> 1) ||| ((x &&& 0x55) <<< 1)) % 2 ^ 8

/-- Compile-time panel tuning knobs (both off, as in the header). -/
def BIT_REVERSE : Bool := false
def INVERT_BYTES : Bool := false

/-- `xform_`: optional bit reverse then optional invert (`~b` on `uint8_t`
is `b ^^^ 0xFF` for byte values). -/
def xform_ (b : Nat) : Nat :=
  let b := if BIT_REVERSE then bitrev8_ b else b
  if INVERT_BYTES then b ^^^ 0xFF else b

/-- `update_full_`: `0x22` data `0xF7`, `0x20`, wait idle. -/
def update_full_ : List SpiOp :=
  [.cmd 0x22, .data 0xF7, .cmd 0x20, .waitIdle]

/-- `update_partial_`: `0x22` data `0xFF`, `0x20`, wait idle. -/
def update_partial_ : List SpiOp :=
  [.cmd 0x22, .data 0xFF, .cmd 0x20, .waitIdle]

/-- `master_addr_setup_` (fixed fullscreen master addressing). -/
def master_addr_setup_ : List SpiOp :=
  [.cmd 0x11, .data 0x05,
   .cmd 0x44, .data 0x00, .data 0x31,
   .cmd 0x45, .data 0x0F, .data 0x01, .data 0x00, .data 0x00,
   .cmd 0x4E, .data 0x00,
   .cmd 0x4F, .data 0x0F, .data 0x01]

/-- `slave_addr_setup_` (fixed fullscreen slave addressing). -/
def slave_addr_setup_ : List SpiOp :=
  [.cmd 0x91, .data 0x04,
   .cmd 0xC4, .data 0x31, .data 0x00,
   .cmd 0xC5, .data 0x0F, .data 0x01, .data 0x00, .data 0x00,
   .cmd 0xCE, .data 0x31,
   .cmd 0xCF, .data 0x0F, .data 0x01]

/-- `master_window_`: windowed master addressing; the `(uint8_t)(v & 0xFF)`
and `(uint8_t)(v >> 8)` casts are `% 2 ^ 8`. -/
def master_window_ (x_start x_end y_top y_bottom : Nat) : List SpiOp :=
  [.cmd 0x11, .data 0x05,
   .cmd 0x44, .data x_start, .data x_end,
   .cmd 0x45, .data (y_bottom % 2 ^ 8), .data ((y_bottom >>> 8) % 2 ^ 8),
              .data (y_top % 2 ^ 8), .data ((y_top >>> 8) % 2 ^ 8),
   .cmd 0x4E, .data x_start,
   .cmd 0x4F, .data (y_bottom % 2 ^ 8), .data ((y_bottom >>> 8) % 2 ^ 8)]

/-- `slave_window_`: windowed slave addressing (slave-local X). -/
def slave_window_ (sx_start sx_end y_top y_bottom : Nat) : List SpiOp :=
  [.cmd 0x91, .data 0x04,
   .cmd 0xC4, .data sx_start, .data sx_end,
   .cmd 0xC5, .data (y_bottom % 2 ^ 8), .data ((y_bottom >>> 8) % 2 ^ 8),
              .data (y_top % 2 ^ 8), .data ((y_top >>> 8) % 2 ^ 8),
   .cmd 0xCE, .data sx_start,
   .cmd 0xCF, .data (y_bottom % 2 ^ 8), .data ((y_bottom >>> 8) % 2 ^ 8)]

/-- NEW-buffer read index of the windowed writes:
`rect_new[(yy - rect_y) * rect_wb + (gcol - rect_xb)]`. -/
def rectIndex (rect_y rect_xb rect_wb yy gcol : Nat) : Nat :=
  (yy - rect_y) * rect_wb + (gcol - rect_xb)

/-- OLD-buffer read index of the windowed writes:
`old_full[yy * BYTES_PER_ROW + gcol]`. -/
def oldIndex (yy gcol : Nat) : Nat := yy * BYTES_PER_ROW + gcol

/-- Data bytes of one global column of the NEW window write. -/
def colNewOps (rect_y rect_xb rect_wb y_top y_bottom : Nat) (rect_new : List Nat)
    (gcol : Nat) : List SpiOp :=
  (rowsDesc y_top y_bottom).map fun yy =>
    .data (xform_ (rect_new.getD (rectIndex rect_y rect_xb rect_wb yy gcol) 0))

/-- Data bytes of one global column of the OLD window write. -/
def colOldOps (y_top y_bottom : Nat) (old_full : List Nat) (gcol : Nat) : List SpiOp :=
  (rowsDesc y_top y_bottom).map fun yy =>
    .data (xform_ (old_full.getD (oldIndex yy gcol) 0))

/-- `write_master_window_new_old_`: NEW to `0x24`, OLD to `0x26`, column
major, Y decreasing. -/
def write_master_window_new_old_ (x_start x_end y_top y_bottom rect_xb rect_y rect_wb : Nat)
    (rect_new old_full : List Nat) : List SpiOp :=
  [.cmd 0x24]
  ++ catMap (colRange x_start x_end) (colNewOps rect_y rect_xb rect_wb y_top y_bottom rect_new)
  ++ [.cmd 0x26]
  ++ catMap (colRange x_start x_end) (colOldOps y_top y_bottom old_full)

/-- `write_slave_window_new_old_`: NEW to `0xA4`, OLD to `0xA6`. -/
def write_slave_window_new_old_ (gcol_start gcol_end y_top y_bottom rect_xb rect_y rect_wb : Nat)
    (rect_new old_full : List Nat) : List SpiOp :=
  [.cmd 0xA4]
  ++ catMap (colRange gcol_start gcol_end) (colNewOps rect_y rect_xb rect_wb y_top y_bottom rect_new)
  ++ [.cmd 0xA6]
  ++ catMap (colRange gcol_start gcol_end) (colOldOps y_top y_bottom old_full)

/-- Fullscreen data traversal of one column: `for (y = 0; y < HEIGHT; ++y)`
reading `frame[(HEIGHT - 1 - y) * BYTES_PER_ROW + col]`. -/
def fullColData (frame : List Nat) (col : Nat) : List SpiOp :=
  (List.range HEIGHT).map fun y =>
    .data (xform_ (frame.getD ((HEIGHT - 1 - y) * BYTES_PER_ROW + col) 0))

/-- `show_full_fullscreen` (driver §4.3.6): master block, slave block,
full update trigger.  `inited` is the driver's `inited_` flag. -/
def show_full_fullscreen (inited : Bool) (frame : List Nat) : List SpiOp :=
  if inited = false then []
  else
    master_addr_setup_ ++ [.waitIdle]
    ++ [.cmd 0x24] ++ catMap (List.range MASTER_COLS) (fullColData frame)
    ++ [.cmd 0x26] ++ List.replicate (MASTER_COLS * HEIGHT) (.data 0x00)
    ++ slave_addr_setup_ ++ [.waitIdle]
    ++ [.cmd 0xA4]
    ++ catMap (colRange SLAVE_START (SLAVE_START + SLAVE_COLS - 1)) (fullColData frame)
    ++ [.cmd 0xA6] ++ List.replicate (SLAVE_COLS * HEIGHT) (.data 0x00)
    ++ update_full_

/-- Modelled from the spec (§4.3.6, claim C2): the full-refresh
command/data sequence exactly as the specification words it: master
addressing setup, wait idle, `0x24` with, for each byte column `c` in
`0..49` and each pixel row `y` from 271 down to 0, the byte
`xform(frame[y*99 + c])`, `0x26` with 13600 zeros, slave addressing setup,
wait idle, `0xA4` over columns `49..98`, `0xA6` with 13600 zeros, and the
trigger `0x22`=`0xF7`, `0x20`, wait idle. -/
def show_full_spec (frame : List Nat) : List SpiOp :=
  [.cmd 0x11, .data 0x05,
   .cmd 0x44, .data 0x00, .data 0x31,
   .cmd 0x45, .data 0x0F, .data 0x01, .data 0x00, .data 0x00,
   .cmd 0x4E, .data 0x00,
   .cmd 0x4F, .data 0x0F, .data 0x01]
  ++ [.waitIdle]
  ++ [.cmd 0x24] ++ catMap (List.range 50) (fun c =>
      ((List.range 272).reverse).map fun y => .data (xform_ (frame.getD (y * 99 + c) 0)))
  ++ [.cmd 0x26] ++ List.replicate 13600 (.data 0x00)
  ++ [.cmd 0x91, .data 0x04,
      .cmd 0xC4, .data 0x31, .data 0x00,
      .cmd 0xC5, .data 0x0F, .data 0x01, .data 0x00, .data 0x00,
      .cmd 0xCE, .data 0x31,
      .cmd 0xCF, .data 0x0F, .data 0x01]
  ++ [.waitIdle]
  ++ [.cmd 0xA4] ++ catMap ((List.range 50).map (fun i => 49 + i)) (fun c =>
      ((List.range 272).reverse).map fun y => .data (xform_ (frame.getD (y * 99 + c) 0)))
  ++ [.cmd 0xA6] ++ List.replicate 13600 (.data 0x00)
  ++ [.cmd 0x22, .data 0xF7, .cmd 0x20, .waitIdle]

/-- `show_partial_window` (driver §4.3.8): guards, clamping, master/slave
split with the shared overlap byte column `SLAVE_START = 49`, then the
partial update trigger. -/
def show_partial_window (inited : Bool) (x0 y0 w0 h0 : Nat)
    (rect_new old_full : List Nat) : List SpiOp :=
  if inited = false then []
  else if x0 % 8 ≠ 0 ∨ w0 % 8 ≠ 0 then []
  else if w0 = 0 ∨ h0 = 0 then []
  else if x0 ≥ WIDTH ∨ y0 ≥ HEIGHT then []
  else
    let w := if x0 + w0 > WIDTH then WIDTH - x0 else w0
    let h := if y0 + h0 > HEIGHT then HEIGHT - y0 else h0
    let rect_xb := x0 / 8
    let rect_wb := w / 8
    let y_top := y0
    let y_bottom := y0 + h - 1
    let x_endb := rect_xb + rect_wb - 1
    let m_start := rect_xb
    let m_end := if x_endb > 49 then 49 else x_endb
    let s_start := if rect_xb < SLAVE_START then SLAVE_START else rect_xb
    let s_end := if x_endb > 98 then 98 else x_endb
    (if m_start > 49 then []
     else
       master_window_ m_start m_end y_top y_bottom ++ [.waitIdle]
       ++ write_master_window_new_old_ m_start m_end y_top y_bottom rect_xb y0 rect_wb
            rect_new old_full)
    ++ (if x_endb < SLAVE_START then []
        else
          slave_window_ (0x31 - (s_start - SLAVE_START)) (0x31 - (s_end - SLAVE_START))
              y_top y_bottom ++ [.waitIdle]
          ++ write_slave_window_new_old_ s_start s_end y_top y_bottom rect_xb y0 rect_wb
               rect_new old_full)
    ++ update_partial_

/-- `show_partial_fullscreen`: windowed partial over the whole panel. -/
def show_partial_fullscreen (inited : Bool) (new_frame old_frame : List Nat) : List SpiOp :=
  show_partial_window inited 0 0 WIDTH HEIGHT new_frame old_frame

/-- `clear_to_white`: full refresh of an all-`0xFF` scratch frame. -/
def clear_to_white (inited : Bool) : List SpiOp :=
  show_full_fullscreen inited (List.replicate FRAME_BYTES 0xFF)

/-! ### Application loop (`main` of `mindwrite_epd_stream.cpp`, lines 167-254) -/

/-- `send_ok()`: the two serial bytes `'O'`, `'K'`. -/
def OKbytes : List Ev := [.ser 79, .ser 75]

/-- Per-row byte copy `memcpy(dst + dstOff, src + srcOff, n)` on a list. -/
def copyRow (dst src : List Nat) (dstOff srcOff n : Nat) : List Nat :=
  (List.range n).foldl (fun acc j => acc.set (dstOff + j) (src.getD (srcOff + j) 0)) dst

/-- The rect patch loops of `main`: for each row `yy` of the rectangle,
copy `wb` bytes from `rect + yy*wb` to `prev + (y+yy)*BYTES_PER_ROW + x/8`. -/
def patchRect (prev rect : List Nat) (x y wb h : Nat) : List Nat :=
  (List.range h).foldl
    (fun acc yy => copyRow acc rect ((y + yy) * BYTES_PER_ROW + x / 8) (yy * wb) wb) prev

/-- Modelled from the spec (claim C3): the byte-level patch of `prev` with
`rect` at `(x, y, w, h)`: the byte at row `r`, byte column `c` of the panel
is `rect[(r - y) * wb + (c - x/8)]` inside the rectangle and the previous
byte elsewhere. -/
def byteLevelPatch (prev rect : List Nat) (x y wb h : Nat) : List Nat :=
  (List.range prev.length).map fun i =>
    if y ≤ i / BYTES_PER_ROW ∧ i / BYTES_PER_ROW < y + h ∧
        x / 8 ≤ i % BYTES_PER_ROW ∧ i % BYTES_PER_ROW < x / 8 + wb then
      rect.getD ((i / BYTES_PER_ROW - y) * wb + (i % BYTES_PER_ROW - x / 8)) 0
    else prev.getD i 0

/-- Processing of one validated payload by the application loop
(lines 167-254 of `mindwrite_epd_stream.cpp`): returns the new `prev_frame`
and the event trace (SPI operations of the dispatched driver call followed
by the ACK bytes; empty on validation rejection). -/
def applyPayload (prev payload : List Nat) : List Nat × List Ev :=
  let flags := payload.getD 0 0
  if flags &&& FLAG_RECT = 0 then
    if payload.length ≠ 1 + FRAME_BYTES then (prev, [])
    else
      let frame := payload.drop 1
      if flags &&& FLAG_FORCE_FULL ≠ 0 then
        (frame, (clear_to_white true ++ show_full_fullscreen true frame).map Ev.spi
          ++ OKbytes)
      else
        (frame, (show_partial_fullscreen true frame prev).map Ev.spi ++ OKbytes)
  else
    if payload.length < 1 + 8 then (prev, [])
    else
      let x := u16le (payload.getD 1 0) (payload.getD 2 0)
      let y := u16le (payload.getD 3 0) (payload.getD 4 0)
      let w0 := u16le (payload.getD 5 0) (payload.getD 6 0)
      let h0 := u16le (payload.getD 7 0) (payload.getD 8 0)
      let rect := payload.drop (1 + 8)
      if x % 8 ≠ 0 ∨ w0 % 8 ≠ 0 then (prev, [])
      else if w0 = 0 ∨ h0 = 0 then (prev, [])
      else if x ≥ WIDTH ∨ y ≥ HEIGHT then (prev, [])
      else
        let w := if x + w0 > WIDTH then WIDTH - x else w0
        let h := if y + h0 > HEIGHT then HEIGHT - y else h0
        let wb := w / 8
        if payload.length ≠ 1 + 8 + wb * h then (prev, [])
        else if flags &&& FLAG_FORCE_FULL ≠ 0 then
          let prev2 := patchRect prev rect x y wb h
          (prev2, (clear_to_white true ++ show_full_fullscreen true prev2).map Ev.spi
            ++ OKbytes)
        else
          (patchRect prev rect x y wb h,
           (show_partial_window true x y w h rect prev).map Ev.spi ++ OKbytes)

structure AppState where
  parser : Parser
  prev : List Nat
deriving DecidableEq, Repr

/-- One input byte of the combined parser + application loop. -/
def appStep (s : AppState) (b : Nat) : AppState × List Ev :=
  match pstep s.parser b with
  | (p, none) => (⟨p, s.prev⟩, [])
  | (p, some payload) =>
    let r := applyPayload s.prev payload
    (⟨p, r.1⟩, r.2)

/-- One fold step of `appRun`. -/
def appRunStep (acc : AppState × List Ev) (b : Nat) : AppState × List Ev :=
  ((appStep acc.1 b).1, acc.2 ++ (appStep acc.1 b).2)

/-- Run the application loop over an input byte list, collecting events. -/
def appRun (s : AppState) (input : List Nat) : AppState × List Ev :=
  input.foldl appRunStep (s, [])

/-- A correctly framed wire message for payload `P` (wire format §6.1):
`MWF1 || len_le(P) || P || crc32_le(P)`. -/
def frameOf (P : List Nat) : List Nat :=
  [77, 87, 70, 49] ++ le4 P.length ++ P ++ le4 (crc32_ieee P)

/-! ## Helper lemmas: little-endian decoding -/

theorem lor_shift_add {a k : Nat} (b : Nat) (ha : a < 2 ^ k) :
    a ||| (b <<< k) = a + b <<< k := by
  have hrw : a + b <<< k = 2 ^ k * b + a := by
    rw [Nat.shiftLeft_eq]; ring
  apply Nat.eq_of_testBit_eq
  intro j
  rw [Nat.testBit_or, Nat.testBit_shiftLeft, hrw, Nat.testBit_mul_pow_two_add b ha j]
  by_cases hj : j < k
  · have h1 : ¬ (k ≤ j) := by omega
    simp [hj, h1]
  · have h1 : k ≤ j := by omega
    have h2 : a.testBit j = false :=
      Nat.testBit_lt_two_pow (lt_of_lt_of_le ha (Nat.pow_le_pow_right (by norm_num) h1))
    simp [hj, h1, h2]

theorem u16le_bytes {b0 b1 : Nat} (h0 : b0 < 2 ^ 8) :
    u16le b0 b1 = b0 + 2 ^ 8 * b1 := by
  unfold u16le
  rw [lor_shift_add b1 h0, Nat.shiftLeft_eq]
  ring

theorem u16le_le2 {n : Nat} (h : n < 2 ^ 16) :
    u16le (n % 2 ^ 8) (n / 2 ^ 8 % 2 ^ 8) = n := by
  rw [u16le_bytes (Nat.mod_lt _ (by norm_num))]
  have h1 : n % 2 ^ 8 < 2 ^ 8 := Nat.mod_lt _ (by norm_num)
  have h2 : n / 2 ^ 8 % 2 ^ 8 = n / 2 ^ 8 := by
    apply Nat.mod_eq_of_lt
    omega
  rw [h2]
  omega

theorem u32le_bytes {b0 b1 b2 b3 : Nat} (h0 : b0 < 2 ^ 8) (h1 : b1 < 2 ^ 8)
    (h2 : b2 < 2 ^ 8) :
    u32le b0 b1 b2 b3 = b0 + 2 ^ 8 * b1 + 2 ^ 16 * b2 + 2 ^ 24 * b3 := by
  unfold u32le
  rw [lor_shift_add b1 h0]
  have hA : b0 + b1 <<< 8 < 2 ^ 16 := by
    rw [Nat.shiftLeft_eq]
    have : b1 * 2 ^ 8 ≤ 255 * 2 ^ 8 := Nat.mul_le_mul_right _ (by omega)
    omega
  rw [lor_shift_add b2 hA]
  have hB : b0 + b1 <<< 8 + b2 <<< 16 < 2 ^ 24 := by
    rw [Nat.shiftLeft_eq, Nat.shiftLeft_eq]
    have e1 : b1 * 2 ^ 8 ≤ 255 * 2 ^ 8 := Nat.mul_le_mul_right _ (by omega)
    have e2 : b2 * 2 ^ 16 ≤ 255 * 2 ^ 16 := Nat.mul_le_mul_right _ (by omega)
    omega
  rw [lor_shift_add b3 hB]
  simp only [Nat.shiftLeft_eq]
  ring

theorem u32le_le4 {n : Nat} (h : n < 2 ^ 32) :
    u32le (n % 2 ^ 8) (n / 2 ^ 8 % 2 ^ 8) (n / 2 ^ 16 % 2 ^ 8) (n / 2 ^ 24 % 2 ^ 8) = n := by
  rw [u32le_bytes (Nat.mod_lt _ (by norm_num)) (Nat.mod_lt _ (by norm_num))
    (Nat.mod_lt _ (by norm_num))]
  have h3 : n / 2 ^ 24 % 2 ^ 8 = n / 2 ^ 24 := by
    apply Nat.mod_eq_of_lt
    omega
  rw [h3]
  omega

/-! ## Helper lemmas: the three CRC-32 implementations agree -/

theorem crc_step_eq (c : Nat) :
    (if c &&& 1 = 1 then (c >>> 1) ^^^ 0xEDB88320 else c >>> 1) = crc32_ieee_step c := by
  unfold crc32_ieee_step
  rw [Nat.and_one_is_mod]
  by_cases h : c % 2 = 1
  · rw [if_pos h, h]
    have hm : (2 ^ 32 - 1) % 2 ^ 32 = 4294967295 := by norm_num
    rw [hm]
    congr 1
  · have h0 : c % 2 = 0 := by omega
    rw [if_neg h, h0]
    simp

theorem crc32_compute_eq_ieee (l : List Nat) : crc32_compute l = crc32_ieee l := by
  unfold crc32_compute crc32_ieee
  congr 2
  funext crc b
  unfold crc32_update
  congr 1
  funext c x
  exact crc_step_eq c

theorem crc32_ieee_eq_spec (l : List Nat) : crc32_ieee l = crc32_spec l := rfl

theorem usb_crc32_eq_ieee (l : List Nat) : usb_crc32 l = crc32_ieee l := rfl

/-- C8: the three CRC-32 implementations in the repository (`crc32_compute`
in `crc32.cpp`, `crc32_ieee` in `mindwrite_epd_stream.cpp`, and
`USBFrameReceiver`'s `crc32_update` folded from `0xFFFFFFFF` followed by
`crc32_finalize`) compute the same function on every byte string, equal to
the reflected IEEE CRC-32 reference of the spec. -/
theorem crc32_implementations_agree (l : List Nat) :
    crc32_compute l = crc32_spec l ∧ crc32_ieee l = crc32_spec l ∧
      usb_crc32 l = crc32_spec l :=
  ⟨(crc32_compute_eq_ieee l).trans (crc32_ieee_eq_spec l), crc32_ieee_eq_spec l,
    (usb_crc32_eq_ieee l).trans (crc32_ieee_eq_spec l)⟩

/-! ## Helper lemmas: CRC-32 range bound -/

theorem crc32_ieee_step_lt {c : Nat} (h : c < 2 ^ 32) : crc32_ieee_step c < 2 ^ 32 := by
  unfold crc32_ieee_step
  apply Nat.xor_lt_two_pow
  · have e : c >>> 1 = c / 2 ^ 1 := Nat.shiftRight_eq_div_pow c 1
    norm_num at e
    omega
  · have : 0xEDB88320 &&& ((2 ^ 32 - (c &&& 1)) % 2 ^ 32) ≤ 0xEDB88320 := Nat.and_le_left
    omega

theorem crc32_inner8_lt {c : Nat} (l : List Unit) (h : c < 2 ^ 32) :
    l.foldl (fun c _ => crc32_ieee_step c) c < 2 ^ 32 := by
  induction l generalizing c with
  | nil => simpa using h
  | cons a l ih => simpa using ih (crc32_ieee_step_lt h)

theorem crc32_inner8_lt' {c : Nat} (l : List Nat) (h : c < 2 ^ 32) :
    l.foldl (fun c _ => crc32_ieee_step c) c < 2 ^ 32 := by
  induction l generalizing c with
  | nil => simpa using h
  | cons a l ih => simpa using ih (crc32_ieee_step_lt h)

theorem crc32_ieee_lt (l : List Nat) (hb : ∀ b ∈ l, b < 256) :
    crc32_ieee l < 2 ^ 32 := by
  unfold crc32_ieee
  apply Nat.xor_lt_two_pow _ (by norm_num)
  have main : ∀ (l' : List Nat) (c : Nat), c < 2 ^ 32 → (∀ b ∈ l', b < 256) →
      l'.foldl (fun crc b =>
        (List.range 8).foldl (fun c _ => crc32_ieee_step c) (crc ^^^ b)) c < 2 ^ 32 := by
    intro l'
    induction l' with
    | nil => intro c hc _; simpa using hc
    | cons a t ih =>
      intro c hc hbt
      simp only [List.foldl_cons]
      apply ih
      · apply crc32_inner8_lt'
        apply Nat.xor_lt_two_pow hc
        have : a < 256 := hbt a (by simp)
        omega
      · intro b hb2; exact hbt b (by simp [hb2])
  exact main l 0xFFFFFFFF (by norm_num) hb

/-! ## Helper lemmas: parser runs -/

theorem prun_go (l : List Nat) : ∀ (p : Parser) (o : List (List Nat)),
    l.foldl prunStep (p, o) = ((prun p l).1, o ++ (prun p l).2) := by
  induction l with
  | nil => intro p o; simp [prun]
  | cons b t ih =>
    intro p o
    have hbt : prun p (b :: t) =
        ((prun (pstep p b).1 t).1, (pstep p b).2.toList ++ (prun (pstep p b).1 t).2) := by
      show t.foldl prunStep (prunStep (p, []) b) = _
      rw [show prunStep (p, []) b = ((pstep p b).1, (pstep p b).2.toList) from by
        simp [prunStep]]
      rw [ih]
    rw [hbt]
    show t.foldl prunStep (prunStep (p, o) b) = _
    rw [show prunStep (p, o) b = ((pstep p b).1, o ++ (pstep p b).2.toList) from rfl]
    rw [ih]
    simp [List.append_assoc]

theorem prun_append (p : Parser) (l1 l2 : List Nat) :
    prun p (l1 ++ l2) =
      ((prun (prun p l1).1 l2).1, (prun p l1).2 ++ (prun (prun p l1).1 l2).2) := by
  show (l1 ++ l2).foldl prunStep (p, []) = _
  rw [List.foldl_append]
  rw [show l1.foldl prunStep (p, []) = ((prun p l1).1, (prun p l1).2) from rfl]
  rw [prun_go]

theorem seek_magic_run (s : Sync) :
    prun ⟨s, .seekMagic⟩ [77, 87, 70, 49] = (⟨⟨77, 87, 70, 49⟩, .readLen []⟩, []) := by
  simp [prun, prunStep, pstep, shiftIn, isMagic]

theorem read_len_run (s : Sync) (l0 l1 l2 l3 : Nat) :
    prun ⟨s, .readLen []⟩ [l0, l1, l2, l3] =
      (if u32le l0 l1 l2 l3 = 0 ∨ u32le l0 l1 l2 l3 > FRAME_BYTES + 9 then
        (⟨s, .seekMagic⟩, [])
       else (⟨s, .readPayload (u32le l0 l1 l2 l3) []⟩, [])) := by
  simp [prun, prunStep, pstep]
  split <;> simp

theorem read_payload_run (s : Sync) (n : Nat) :
    ∀ (P acc : List Nat), acc.length + P.length = n → P ≠ [] →
      prun ⟨s, .readPayload n acc⟩ P = (⟨s, .readCRC (acc ++ P) []⟩, []) := by
  intro P
  induction P with
  | nil => intro acc _ hne; exact absurd rfl hne
  | cons b t ih =>
    intro acc hlen _
    cases t with
    | nil =>
      have hn : (acc ++ [b]).length = n := by simp at hlen ⊢; omega
      simp [prun, prunStep, pstep, hn]
    | cons b2 t2 =>
      have hl2 : (b :: b2 :: t2).length = t2.length + 2 := by simp
      rw [hl2] at hlen
      have hne : ¬ (acc.length + 1 = n) := by omega
      have hps : pstep ⟨s, .readPayload n acc⟩ b = (⟨s, .readPayload n (acc ++ [b])⟩, none) := by
        simp [pstep, hne]
      have hstep : prun ⟨s, .readPayload n acc⟩ (b :: b2 :: t2) =
          prun ⟨s, .readPayload n (acc ++ [b])⟩ (b2 :: t2) := by
        show (b2 :: t2).foldl prunStep (prunStep (⟨s, .readPayload n acc⟩, []) b) = _
        rw [show prunStep (⟨s, .readPayload n acc⟩, []) b =
          ((pstep ⟨s, .readPayload n acc⟩ b).1, (pstep ⟨s, .readPayload n acc⟩ b).2.toList)
            from by simp [prunStep]]
        rw [hps]
        simp [prun]
      rw [hstep]
      have hrec := ih (acc ++ [b]) (by simp; omega) (by simp)
      rw [hrec]
      simp

theorem read_crc_run (s : Sync) (payload : List Nat) (c0 c1 c2 c3 : Nat) :
    prun ⟨s, .readCRC payload []⟩ [c0, c1, c2, c3] =
      (⟨s, .seekMagic⟩,
       if u32le c0 c1 c2 c3 = crc32_ieee payload then [payload] else []) := by
  simp [prun, prunStep, pstep]
  split <;> simp

/-- Core round-trip lemma: from any `SeekMagic` window, a correctly framed
payload is delivered exactly and the parser returns to `SeekMagic`. -/
theorem frame_run (s : Sync) (P : List Nat) (h1 : 0 < P.length)
    (h2 : P.length ≤ FRAME_BYTES + 9) (hb : ∀ b ∈ P, b < 256) :
    prun ⟨s, .seekMagic⟩ (frameOf P) = (⟨⟨77, 87, 70, 49⟩, .seekMagic⟩, [P]) := by
  have hFB : FRAME_BYTES = 26928 := by norm_num [FRAME_BYTES, BYTES_PER_ROW, WIDTH, HEIGHT]
  have hlen32 : P.length < 2 ^ 32 := by omega
  have hcrc32 : crc32_ieee P < 2 ^ 32 := crc32_ieee_lt P hb
  have hsplit : frameOf P =
      [77, 87, 70, 49] ++ (le4 P.length ++ (P ++ le4 (crc32_ieee P))) := by
    simp [frameOf]
  have s2 : prun ⟨⟨77, 87, 70, 49⟩, .readLen []⟩ (le4 P.length) =
      (⟨⟨77, 87, 70, 49⟩, .readPayload P.length []⟩, []) := by
    unfold le4
    rw [read_len_run, u32le_le4 hlen32, if_neg (by omega)]
  have s3 : prun ⟨⟨77, 87, 70, 49⟩, .readPayload P.length []⟩ P =
      (⟨⟨77, 87, 70, 49⟩, .readCRC P []⟩, []) := by
    have := read_payload_run ⟨77, 87, 70, 49⟩ P.length P [] (by simp)
      (by intro hP; rw [hP] at h1; simp at h1)
    simpa using this
  have s4 : prun ⟨⟨77, 87, 70, 49⟩, .readCRC P []⟩ (le4 (crc32_ieee P)) =
      (⟨⟨77, 87, 70, 49⟩, .seekMagic⟩, [P]) := by
    unfold le4
    rw [read_crc_run, u32le_le4 hcrc32, if_pos rfl]
  rw [hsplit, prun_append, seek_magic_run]
  simp only []
  rw [prun_append, s2]
  simp only []
  rw [prun_append, s3]
  simp only []
  rw [s4]
  simp

/-- C1: round-trip framing.  For every byte string `P` with
`0 < |P| ≤ FRAME_BYTES + 9`, feeding the parser, starting in SeekMagic,
the bytes `M`,`W`,`F`,`1`, the 4-byte little-endian `|P|`, `P`, and the
4-byte little-endian `crc32(P)` delivers exactly the payload `P` to the
application and leaves the parser back in SeekMagic. -/
theorem roundtrip_framing (s : Sync) (P : List Nat) (h1 : 0 < P.length)
    (h2 : P.length ≤ FRAME_BYTES + 9) (hb : ∀ b ∈ P, b < 256) :
    prun ⟨s, .seekMagic⟩ (frameOf P) = (⟨⟨77, 87, 70, 49⟩, .seekMagic⟩, [P]) :=
  frame_run s P h1 h2 hb

theorem roundtrip_framing_witness :
    prun ⟨⟨0, 0, 0, 0⟩, .seekMagic⟩ (frameOf [1]) =
      (⟨⟨77, 87, 70, 49⟩, .seekMagic⟩, [[1]]) :=
  roundtrip_framing ⟨0, 0, 0, 0⟩ [1] (by decide) (by decide) (by decide)

/-- Three garbage bytes `M`,`W`,`F` before a frame only shift the window. -/
theorem garbage_prefix_run :
    prun pInit [77, 87, 70] = (⟨⟨0, 77, 87, 70⟩, .seekMagic⟩, []) := by decide

/-- C6: sync-window preservation.  In SeekMagic the 4-byte window shifts by
one byte per input byte and is never cleared, so `M W F` followed by a valid
frame (whose magic starts at the second `M`) is accepted; and on a validation
failure (bad length, CRC mismatch) the parser returns to SeekMagic with its
sync window preserved. -/
theorem sync_window_preservation (s : Sync) (P payload : List Nat)
    (l0 l1 l2 l3 c0 c1 c2 c3 : Nat)
    (hP1 : 0 < P.length) (hP2 : P.length ≤ FRAME_BYTES + 9) (hPb : ∀ b ∈ P, b < 256)
    (hbad : u32le l0 l1 l2 l3 = 0 ∨ u32le l0 l1 l2 l3 > FRAME_BYTES + 9)
    (hcrc : u32le c0 c1 c2 c3 ≠ crc32_ieee payload) :
    prun pInit ([77, 87, 70] ++ frameOf P) = (⟨⟨77, 87, 70, 49⟩, .seekMagic⟩, [P]) ∧
    pstep ⟨s, .readLen [l0, l1, l2]⟩ l3 = (⟨s, .seekMagic⟩, none) ∧
    pstep ⟨s, .readCRC payload [c0, c1, c2]⟩ c3 = (⟨s, .seekMagic⟩, none) := by
  refine ⟨?_, ?_, ?_⟩
  · rw [prun_append, garbage_prefix_run]
    simp only []
    rw [frame_run _ P hP1 hP2 hPb]
    simp
  · have e : pstep ⟨s, .readLen [l0, l1, l2]⟩ l3 =
        if u32le l0 l1 l2 l3 = 0 ∨ u32le l0 l1 l2 l3 > FRAME_BYTES + 9 then
          ((⟨s, .seekMagic⟩, none) : Parser × Option (List Nat))
        else (⟨s, .readPayload (u32le l0 l1 l2 l3) []⟩, none) := rfl
    rw [e, if_pos hbad]
  · have e : pstep ⟨s, .readCRC payload [c0, c1, c2]⟩ c3 =
        if u32le c0 c1 c2 c3 = crc32_ieee payload then
          ((⟨s, .seekMagic⟩, some payload) : Parser × Option (List Nat))
        else (⟨s, .seekMagic⟩, none) := rfl
    rw [e, if_neg hcrc]

theorem sync_window_preservation_witness :
    prun pInit ([77, 87, 70] ++ frameOf [1]) =
      (⟨⟨77, 87, 70, 49⟩, .seekMagic⟩, [[1]]) ∧
    pstep ⟨⟨0, 0, 0, 0⟩, .readLen [0, 0, 0]⟩ 0 = (⟨⟨0, 0, 0, 0⟩, .seekMagic⟩, none) ∧
    pstep ⟨⟨0, 0, 0, 0⟩, .readCRC [2] [0, 0, 0]⟩ 0 = (⟨⟨0, 0, 0, 0⟩, .seekMagic⟩, none) :=
  sync_window_preservation ⟨0, 0, 0, 0⟩ [1] [2] 0 0 0 0 0 0 0 0
    (by decide) (by decide) (by decide) (by decide) (by decide)

/-- C7: length validation.  In the ReadLen phase the 4 length bytes are read
little-endian; the frame is rejected, back to SeekMagic, exactly when
`len = 0` or `len > FRAME_BYTES + 9`; for valid `len` the parser proceeds to
read exactly `len` payload bytes and then enters the CRC phase. -/
theorem length_validation (s : Sync) (l0 l1 l2 l3 n : Nat) (P : List Nat)
    (hn : 0 < n) (hP : P.length = n) :
    prun ⟨s, .readLen []⟩ [l0, l1, l2, l3] =
      (if u32le l0 l1 l2 l3 = 0 ∨ u32le l0 l1 l2 l3 > FRAME_BYTES + 9 then
        ((⟨s, .seekMagic⟩, []) : Parser × List (List Nat))
       else (⟨s, .readPayload (u32le l0 l1 l2 l3) []⟩, [])) ∧
    prun ⟨s, .readPayload n []⟩ P = (⟨s, .readCRC P []⟩, []) := by
  constructor
  · exact read_len_run s l0 l1 l2 l3
  · have hne : P ≠ [] := by
      intro h
      rw [h] at hP
      simp at hP
      omega
    have := read_payload_run s n P [] (by simp [hP]) hne
    simpa using this

theorem length_validation_witness :
    prun ⟨⟨0, 0, 0, 0⟩, .readLen []⟩ [5, 0, 0, 0] =
      (if u32le 5 0 0 0 = 0 ∨ u32le 5 0 0 0 > FRAME_BYTES + 9 then
        ((⟨⟨0, 0, 0, 0⟩, .seekMagic⟩, []) : Parser × List (List Nat))
       else (⟨⟨0, 0, 0, 0⟩, .readPayload (u32le 5 0 0 0) []⟩, [])) ∧
    prun ⟨⟨0, 0, 0, 0⟩, .readPayload 2 []⟩ [7, 8] =
      (⟨⟨0, 0, 0, 0⟩, .readCRC [7, 8] []⟩, []) :=
  length_validation ⟨0, 0, 0, 0⟩ 5 0 0 0 2 [7, 8] (by decide) (by decide)

/-! ## Helper lemmas: serial output of the application loop -/

theorem serOf_append (a b : List Ev) : serOf (a ++ b) = serOf a ++ serOf b := by
  simp [serOf]

theorem serOf_spi_map (l : List SpiOp) : serOf (l.map Ev.spi) = [] := by
  simp [serOf]

theorem serOf_OKbytes : serOf OKbytes = [79, 75] := rfl

theorem filterMap_spi_comp (l : List SpiOp) :
    List.filterMap
      ((fun e => match e with | Ev.ser b => some b | Ev.spi _ => none) ∘ Ev.spi) l = [] := by
  simp

/-- Every frame outcome emits either nothing or exactly the ACK pair. -/
theorem ack_only (prev payload : List Nat) :
    serOf (applyPayload prev payload).2 = [] ∨
      serOf (applyPayload prev payload).2 = [79, 75] := by
  simp only [applyPayload]
  split_ifs <;>
    simp [serOf, List.filterMap_append, filterMap_spi_comp, OKbytes]

/-- C5: CRC failure is silent and atomic.  If the received CRC bytes, read
little-endian, differ from `crc32` of the payload, the frame is dropped, the
parser returns to SeekMagic without delivering a payload, no driver
operation runs, `prev_frame` is unchanged and no serial bytes are emitted;
and processing a payload only ever emits the ACK pair `O`,`K` (never a
negative acknowledgement). -/
theorem crc_failure_silent (s : Sync) (payload prev : List Nat) (c0 c1 c2 c3 : Nat)
    (hcrc : u32le c0 c1 c2 c3 ≠ crc32_ieee payload) :
    appRun ⟨⟨s, .readCRC payload []⟩, prev⟩ [c0, c1, c2, c3] =
      (⟨⟨s, .seekMagic⟩, prev⟩, []) ∧
    (serOf (applyPayload prev payload).2 = [] ∨
      serOf (applyPayload prev payload).2 = [79, 75]) := by
  refine ⟨?_, ack_only prev payload⟩
  simp [appRun, appRunStep, appStep, pstep, hcrc]

theorem crc_failure_silent_witness :
    appRun ⟨⟨⟨0, 0, 0, 0⟩, .readCRC [2] []⟩, []⟩ [0, 0, 0, 0] =
      (⟨⟨⟨0, 0, 0, 0⟩, .seekMagic⟩, []⟩, []) ∧
    (serOf (applyPayload [] [2]).2 = [] ∨ serOf (applyPayload [] [2]).2 = [79, 75]) :=
  crc_failure_silent ⟨0, 0, 0, 0⟩ [2] [] 0 0 0 0 (by decide)

/-! ## Helper lemmas: column/row ranges and trace blocks -/

theorem rev_range_map {α : Type} (n : Nat) (f : Nat → α) :
    ((List.range n).reverse).map f = (List.range n).map (fun y => f (n - 1 - y)) := by
  have h1 := List.reverse_range' 0 n
  rw [← List.range_eq_range'] at h1
  rw [h1, List.map_map]
  congr 1
  funext i
  simp only [Function.comp]
  congr 1
  omega

theorem colRange_eq_range' (a b : Nat) : colRange a b = List.range' a (b + 1 - a) := by
  rw [colRange, List.range'_eq_map_range]

theorem colRange_cons {a b : Nat} (h : a ≤ b) : colRange a b = a :: colRange (a + 1) b := by
  rw [colRange_eq_range', colRange_eq_range']
  have h1 : b + 1 - a = (b - a) + 1 := by omega
  have h2 : b + 1 - (a + 1) = b - a := by omega
  rw [h1, h2, List.range'_succ]

theorem colRange_snoc {a b : Nat} (h : a ≤ b) (hb : 0 < b) :
    colRange a b = colRange a (b - 1) ++ [b] := by
  unfold colRange
  have h1 : b + 1 - a = (b - a) + 1 := by omega
  have h2 : (b - 1) + 1 - a = b - a := by omega
  rw [h1, h2, List.range_succ, List.map_append]
  congr 1
  simp
  omega

theorem mem_colRange {a b g : Nat} : g ∈ colRange a b ↔ a ≤ g ∧ g ≤ b := by
  rw [colRange_eq_range', List.mem_range'_1]
  omega

theorem mem_rowsDesc {a b yy : Nat} : yy ∈ rowsDesc a b ↔ a ≤ yy ∧ yy ≤ b := by
  unfold rowsDesc
  simp only [List.mem_map, List.mem_range]
  constructor
  · rintro ⟨i, hi, rfl⟩
    omega
  · rintro ⟨h1, h2⟩
    exact ⟨b - yy, by omega, by omega⟩

theorem catMap_cons {α : Type} (c : Nat) (l : List Nat) (f : Nat → List α) :
    catMap (c :: l) f = f c ++ catMap l f := rfl

theorem catMap_append {α : Type} (l1 l2 : List Nat) (f : Nat → List α) :
    catMap (l1 ++ l2) f = catMap l1 f ++ catMap l2 f := by
  induction l1 with
  | nil => rfl
  | cons c t ih =>
    rw [List.cons_append, catMap_cons, catMap_cons, ih, List.append_assoc]

theorem catMap_singleton {α : Type} (c : Nat) (f : Nat → List α) :
    catMap [c] f = f c := by
  rw [catMap_cons]
  simp [catMap]

/-- C2: command-order trace of the full refresh.  With the driver
initialized, `show_full_fullscreen` emits exactly the §4.3.6 sequence:
master addressing setup, wait idle, `0x24` with columns 0..49 each scanned
with pixel row `y` from 271 down to 0 reading `xform(frame[y*99+c])`,
`0x26` with 13600 zeros, slave addressing setup, wait idle, `0xA4` over
columns 49..98, `0xA6` with 13600 zeros, then `0x22`=`0xF7`, `0x20`,
wait idle. -/
theorem show_full_trace (frame : List Nat) :
    show_full_fullscreen true frame = show_full_spec frame := by
  have hcol : ∀ c, ((List.range 272).reverse).map
      (fun y => SpiOp.data (xform_ (frame.getD (y * 99 + c) 0))) = fullColData frame c := by
    intro c
    rw [rev_range_map]
    unfold fullColData
    norm_num [HEIGHT, BYTES_PER_ROW, WIDTH]
  have hfun : (fun c => ((List.range 272).reverse).map
      (fun y => SpiOp.data (xform_ (frame.getD (y * 99 + c) 0)))) = fullColData frame :=
    funext hcol
  have hslavecols : colRange SLAVE_START (SLAVE_START + SLAVE_COLS - 1) =
      (List.range 50).map (fun i => 49 + i) := by
    norm_num [colRange, SLAVE_START, SLAVE_COLS]
  unfold show_full_fullscreen show_full_spec
  rw [if_neg (by simp)]
  rw [hfun, hslavecols]
  rw [show MASTER_COLS * HEIGHT = 13600 from by norm_num [MASTER_COLS, HEIGHT]]
  rw [show SLAVE_COLS * HEIGHT = 13600 from by norm_num [SLAVE_COLS, HEIGHT]]
  rw [show List.range MASTER_COLS = List.range 50 from by norm_num [MASTER_COLS]]
  unfold master_addr_setup_ slave_addr_setup_ update_full_
  rfl

/-- C4: overlap-column split.  For an accepted `show_partial_window` call
whose byte-column range `[x/8, x/8 + w/8 - 1]` contains global column 49
(clamped width `w'`, clamped height `h'`, `xe = x/8 + w'/8 - 1`,
`se = min xe 98`), the trace is a master half covering columns `x/8..49`
followed by a slave half covering columns `49..se` whose window endpoints
are mapped by `slave_x = 0x31 - (gcol - 49)`; the NEW (`0x24`/`0xA4`) and
OLD (`0x26`/`0xA6`) data bytes of the shared column 49 are transmitted in
both halves. -/
theorem overlap_column_split (x0 y0 w0 h0 : Nat) (rn of : List Nat)
    (w' h' xe se : Nat)
    (hw' : w' = if x0 + w0 > WIDTH then WIDTH - x0 else w0)
    (hh' : h' = if y0 + h0 > HEIGHT then HEIGHT - y0 else h0)
    (hxe : xe = x0 / 8 + w' / 8 - 1)
    (hse : se = if xe > 98 then 98 else xe)
    (hx8 : x0 % 8 = 0) (hw8 : w0 % 8 = 0) (hwpos : w0 ≠ 0) (hhpos : h0 ≠ 0)
    (hxW : x0 < WIDTH) (hyH : y0 < HEIGHT)
    (hov1 : x0 / 8 ≤ 49) (hov2 : 49 ≤ xe) :
    show_partial_window true x0 y0 w0 h0 rn of =
      (master_window_ (x0 / 8) 49 y0 (y0 + h' - 1) ++ [.waitIdle]
        ++ write_master_window_new_old_ (x0 / 8) 49 y0 (y0 + h' - 1) (x0 / 8) y0 (w' / 8)
             rn of)
      ++ ((slave_window_ 0x31 (0x31 - (se - 49)) y0 (y0 + h' - 1) ++ [.waitIdle]
        ++ write_slave_window_new_old_ 49 se y0 (y0 + h' - 1) (x0 / 8) y0 (w' / 8) rn of)
        ++ update_partial_) ∧
    write_master_window_new_old_ (x0 / 8) 49 y0 (y0 + h' - 1) (x0 / 8) y0 (w' / 8) rn of =
      [.cmd 0x24]
      ++ (catMap (colRange (x0 / 8) 48) (colNewOps y0 (x0 / 8) (w' / 8) y0 (y0 + h' - 1) rn)
          ++ colNewOps y0 (x0 / 8) (w' / 8) y0 (y0 + h' - 1) rn 49)
      ++ ([.cmd 0x26]
          ++ (catMap (colRange (x0 / 8) 48) (colOldOps y0 (y0 + h' - 1) of)
              ++ colOldOps y0 (y0 + h' - 1) of 49)) ∧
    write_slave_window_new_old_ 49 se y0 (y0 + h' - 1) (x0 / 8) y0 (w' / 8) rn of =
      [.cmd 0xA4]
      ++ (colNewOps y0 (x0 / 8) (w' / 8) y0 (y0 + h' - 1) rn 49
          ++ catMap (colRange 50 se) (colNewOps y0 (x0 / 8) (w' / 8) y0 (y0 + h' - 1) rn))
      ++ ([.cmd 0xA6]
          ++ (colOldOps y0 (y0 + h' - 1) of 49
              ++ catMap (colRange 50 se) (colOldOps y0 (y0 + h' - 1) of))) := by
  have hse49 : 49 ≤ se := by rw [hse]; split <;> omega
  refine ⟨?_, ?_, ?_⟩
  · simp only [show_partial_window]
    rw [if_neg (show ¬(true = false) by simp)]
    rw [if_neg (show ¬(x0 % 8 ≠ 0 ∨ w0 % 8 ≠ 0) by simp [hx8, hw8])]
    rw [if_neg (show ¬(w0 = 0 ∨ h0 = 0) by simp [hwpos, hhpos])]
    rw [if_neg (show ¬(x0 ≥ WIDTH ∨ y0 ≥ HEIGHT) by push_neg; exact ⟨hxW, hyH⟩)]
    rw [← hw', ← hh', ← hxe, ← hse]
    rw [show (if xe > 49 then 49 else xe) = 49 from by split <;> omega]
    rw [if_neg (show ¬(x0 / 8 > 49) by omega)]
    rw [if_neg (show ¬(xe < SLAVE_START) from by
      rw [show SLAVE_START = 49 from rfl]; omega)]
    rw [show (if x0 / 8 < SLAVE_START then SLAVE_START else x0 / 8) = 49 from by
      rw [show SLAVE_START = 49 from rfl]; split <;> omega]
    rw [show SLAVE_START = 49 from rfl]
    norm_num
  · have h49 : colRange (x0 / 8) 49 = colRange (x0 / 8) 48 ++ [49] := by
      have := colRange_snoc hov1 (by norm_num)
      simpa using this
    unfold write_master_window_new_old_
    rw [h49, catMap_append, catMap_append, catMap_singleton, catMap_singleton]
    simp [List.append_assoc]
  · have h49c : colRange 49 se = 49 :: colRange 50 se := by
      have := colRange_cons hse49
      rw [show (49 : Nat) + 1 = 50 from by norm_num] at this
      exact this
    unfold write_slave_window_new_old_
    rw [h49c, catMap_cons, catMap_cons]
    simp [List.append_assoc]

theorem overlap_column_split_witness :
    show_partial_window true 392 0 16 1 [170, 187] [] =
      (master_window_ 49 49 0 0 ++ [.waitIdle]
        ++ write_master_window_new_old_ 49 49 0 0 49 0 2 [170, 187] [])
      ++ ((slave_window_ 0x31 (0x31 - (50 - 49)) 0 0 ++ [.waitIdle]
        ++ write_slave_window_new_old_ 49 50 0 0 49 0 2 [170, 187] [])
        ++ update_partial_) :=
  (overlap_column_split 392 0 16 1 [170, 187] [] 16 1 50 50 (by decide) (by decide)
    (by decide) (by decide) (by decide) (by decide) (by decide) (by decide)
    (by decide) (by decide) (by decide) (by decide)).1

/-- C10: in-bounds safety of the windowed writes.  For every
`show_partial_window` call that passes its guards, after clamping, every
rectangle-buffer read index `rectIndex` in both the master half (columns
`x/8..min xe 49`) and the slave half (columns `max (x/8) 49..min xe 98`)
is strictly below `(w'/8) * h'`, and every old-frame read index `oldIndex`
is strictly below `FRAME_BYTES`. -/
theorem windowed_write_in_bounds (x0 y0 w0 h0 w' h' xe : Nat)
    (hw' : w' = if x0 + w0 > WIDTH then WIDTH - x0 else w0)
    (hh' : h' = if y0 + h0 > HEIGHT then HEIGHT - y0 else h0)
    (hxe : xe = x0 / 8 + w' / 8 - 1)
    (hx8 : x0 % 8 = 0) (hw8 : w0 % 8 = 0) (hwpos : w0 ≠ 0) (hhpos : h0 ≠ 0)
    (hxW : x0 < WIDTH) (hyH : y0 < HEIGHT) :
    (((colRange (x0 / 8) (if xe > 49 then 49 else xe)).all fun gcol =>
        (rowsDesc y0 (y0 + h' - 1)).all fun yy =>
          decide (rectIndex y0 (x0 / 8) (w' / 8) yy gcol < (w' / 8) * h' ∧
                  oldIndex yy gcol < FRAME_BYTES)) &&
     ((colRange (if x0 / 8 < SLAVE_START then SLAVE_START else x0 / 8)
          (if xe > 98 then 98 else xe)).all fun gcol =>
        (rowsDesc y0 (y0 + h' - 1)).all fun yy =>
          decide (rectIndex y0 (x0 / 8) (w' / 8) yy gcol < (w' / 8) * h' ∧
                  oldIndex yy gcol < FRAME_BYTES))) = true := by
  have hW : WIDTH = 792 := by norm_num [WIDTH]
  have hH : HEIGHT = 272 := by norm_num [HEIGHT]
  have hB : BYTES_PER_ROW = 99 := by norm_num [BYTES_PER_ROW, WIDTH]
  have hFB : FRAME_BYTES = 26928 := by norm_num [FRAME_BYTES, BYTES_PER_ROW, WIDTH, HEIGHT]
  have hSS : SLAVE_START = 49 := rfl
  have hw'8 : w' % 8 = 0 := by rw [hw']; split <;> omega
  have hw'pos : 0 < w' := by rw [hw']; split <;> omega
  have hxw' : x0 + w' ≤ 792 := by rw [hw']; split <;> omega
  have hh'pos : 0 < h' := by rw [hh']; split <;> omega
  have hyh' : y0 + h' ≤ 272 := by rw [hh']; split <;> omega
  have hcols : x0 / 8 + w' / 8 ≤ 99 := by omega
  have hwb1 : 1 ≤ w' / 8 := by omega
  have e1 : (if xe > 49 then 49 else xe) ≤ xe := by split <;> omega
  have e2 : (if xe > 98 then 98 else xe) ≤ xe := by split <;> omega
  have e3 : x0 / 8 ≤ (if x0 / 8 < SLAVE_START then SLAVE_START else x0 / 8) := by
    rw [hSS]
    split <;> omega
  rw [Bool.and_eq_true]
  constructor
  · rw [List.all_eq_true]
    intro gcol hg
    rw [List.all_eq_true]
    intro yy hyy
    rw [decide_eq_true_eq]
    rw [mem_colRange] at hg
    rw [mem_rowsDesc] at hyy
    constructor
    · unfold rectIndex
      have h1 : gcol - x0 / 8 < w' / 8 := by omega
      have h2 : yy - y0 + 1 ≤ h' := by omega
      calc (yy - y0) * (w' / 8) + (gcol - x0 / 8)
          < (yy - y0) * (w' / 8) + w' / 8 := by omega
        _ = (yy - y0 + 1) * (w' / 8) := by ring
        _ ≤ h' * (w' / 8) := Nat.mul_le_mul_right _ h2
        _ = (w' / 8) * h' := Nat.mul_comm _ _
    · unfold oldIndex
      rw [hB, hFB]
      have h3 : yy ≤ 271 := by omega
      have h4 : gcol ≤ 98 := by omega
      have h5 : yy * 99 ≤ 271 * 99 := Nat.mul_le_mul_right _ h3
      omega
  · rw [List.all_eq_true]
    intro gcol hg
    rw [List.all_eq_true]
    intro yy hyy
    rw [decide_eq_true_eq]
    rw [mem_colRange] at hg
    rw [mem_rowsDesc] at hyy
    constructor
    · unfold rectIndex
      have h1 : gcol - x0 / 8 < w' / 8 := by omega
      have h2 : yy - y0 + 1 ≤ h' := by omega
      calc (yy - y0) * (w' / 8) + (gcol - x0 / 8)
          < (yy - y0) * (w' / 8) + w' / 8 := by omega
        _ = (yy - y0 + 1) * (w' / 8) := by ring
        _ ≤ h' * (w' / 8) := Nat.mul_le_mul_right _ h2
        _ = (w' / 8) * h' := Nat.mul_comm _ _
    · unfold oldIndex
      rw [hB, hFB]
      have h3 : yy ≤ 271 := by omega
      have h4 : gcol ≤ 98 := by omega
      have h5 : yy * 99 ≤ 271 * 99 := Nat.mul_le_mul_right _ h3
      omega

theorem windowed_write_in_bounds_witness :
    (((colRange (392 / 8) (if (50 : Nat) > 49 then 49 else 50)).all fun gcol =>
        (rowsDesc 0 (0 + 1 - 1)).all fun yy =>
          decide (rectIndex 0 (392 / 8) (16 / 8) yy gcol < (16 / 8) * 1 ∧
                  oldIndex yy gcol < FRAME_BYTES)) &&
     ((colRange (if 392 / 8 < SLAVE_START then SLAVE_START else 392 / 8)
          (if (50 : Nat) > 98 then 98 else 50)).all fun gcol =>
        (rowsDesc 0 (0 + 1 - 1)).all fun yy =>
          decide (rectIndex 0 (392 / 8) (16 / 8) yy gcol < (16 / 8) * 1 ∧
                  oldIndex yy gcol < FRAME_BYTES))) = true :=
  windowed_write_in_bounds 392 0 16 1 16 1 50 (by decide) (by decide) (by decide)
    (by decide) (by decide) (by decide) (by decide) (by decide) (by decide)

/-! ## Helper lemmas: update-trigger suffix of driver traces -/

theorem suffix_helper {α : Type} (l1 : List α) {l l2 : List α}
    (h : ∃ p, l2 = p ++ l) : ∃ p, l1 ++ l2 = p ++ l := by
  obtain ⟨p, rfl⟩ := h
  exact ⟨l1 ++ p, by rw [List.append_assoc]⟩

theorem show_full_ends (frame : List Nat) :
    ∃ pre, show_full_fullscreen true frame =
      pre ++ [SpiOp.cmd 0x22, .data 0xF7, .cmd 0x20, .waitIdle] := by
  unfold show_full_fullscreen
  rw [if_neg (by simp)]
  rw [show update_full_ = [SpiOp.cmd 0x22, .data 0xF7, .cmd 0x20, .waitIdle] from rfl]
  repeat apply suffix_helper
  exact ⟨[], rfl⟩

theorem spw_ends (x0 y0 w0 h0 : Nat) (rn of : List Nat)
    (hx8 : x0 % 8 = 0) (hw8 : w0 % 8 = 0) (hw : w0 ≠ 0) (hh : h0 ≠ 0)
    (hxW : x0 < WIDTH) (hyH : y0 < HEIGHT) :
    ∃ pre, show_partial_window true x0 y0 w0 h0 rn of =
      pre ++ [SpiOp.cmd 0x22, .data 0xFF, .cmd 0x20, .waitIdle] := by
  simp only [show_partial_window]
  rw [if_neg (show ¬(true = false) by simp)]
  rw [if_neg (show ¬(x0 % 8 ≠ 0 ∨ w0 % 8 ≠ 0) by simp [hx8, hw8])]
  rw [if_neg (show ¬(w0 = 0 ∨ h0 = 0) by simp [hw, hh])]
  rw [if_neg (show ¬(x0 ≥ WIDTH ∨ y0 ≥ HEIGHT) by push_neg; exact ⟨hxW, hyH⟩)]
  rw [show update_partial_ = [SpiOp.cmd 0x22, .data 0xFF, .cmd 0x20, .waitIdle] from rfl]
  repeat apply suffix_helper
  exact ⟨[], rfl⟩

theorem map_spi_clear_full_shape (F : List Nat) :
    ∃ pre, clear_to_white true ++ show_full_fullscreen true F =
      pre ++ [SpiOp.cmd 0x22, .data 0xF7, .cmd 0x20, .waitIdle] := by
  obtain ⟨p, hp⟩ := show_full_ends F
  exact ⟨clear_to_white true ++ p, by rw [hp, List.append_assoc]⟩

set_option maxHeartbeats 2000000 in
/-- C9: ACK causality.  For every processed payload, either the frame is
dropped and no event (in particular no serial byte) is emitted, or the
event trace consists of the driver's SPI operations ending with the update
trigger `0x22`, trigger data, `0x20` and its `wait_idle`, followed only
then by the ACK bytes `O`,`K`. -/
theorem ack_causality (prev payload : List Nat) :
    (applyPayload prev payload).2 = [] ∨
    ∃ pre trig, (applyPayload prev payload).2 =
      (pre ++ [SpiOp.cmd 0x22, .data trig, .cmd 0x20, .waitIdle]).map Ev.spi
        ++ OKbytes := by
  have hW : WIDTH = 792 := by norm_num [WIDTH]
  have hH : HEIGHT = 272 := by norm_num [HEIGHT]
  obtain ⟨prev2, evs, hA⟩ : ∃ p e, applyPayload prev payload = (p, e) :=
    ⟨(applyPayload prev payload).1, (applyPayload prev payload).2, rfl⟩
  rw [hA]
  show evs = [] ∨ ∃ pre trig, evs =
    (pre ++ [SpiOp.cmd 0x22, .data trig, .cmd 0x20, .waitIdle]).map Ev.spi ++ OKbytes
  simp only [applyPayload] at hA
  split_ifs at hA
  all_goals (injection hA with hA1 hA2; subst hA2)
  all_goals (first
    | exact Or.inl rfl
    | (right
       obtain ⟨p, hp⟩ := map_spi_clear_full_shape _
       exact ⟨p, 0xF7, by rw [hp]⟩)
    | (right
       obtain ⟨p, hp⟩ := spw_ends 0 0 WIDTH HEIGHT (payload.drop 1) prev (by omega)
         (by omega) (by omega) (by omega) (by omega) (by omega)
       exact ⟨p, 0xFF, by simp only [show_partial_fullscreen]; rw [hp]⟩)
    | (right
       obtain ⟨p, hp⟩ := spw_ends (u16le (payload.getD 1 0) (payload.getD 2 0))
         (u16le (payload.getD 3 0) (payload.getD 4 0))
         (WIDTH - u16le (payload.getD 1 0) (payload.getD 2 0))
         (HEIGHT - u16le (payload.getD 3 0) (payload.getD 4 0))
         (payload.drop (1 + 8)) prev (by omega) (by omega) (by omega) (by omega)
         (by omega) (by omega)
       exact ⟨p, 0xFF, by rw [hp]⟩)
    | (right
       obtain ⟨p, hp⟩ := spw_ends (u16le (payload.getD 1 0) (payload.getD 2 0))
         (u16le (payload.getD 3 0) (payload.getD 4 0))
         (WIDTH - u16le (payload.getD 1 0) (payload.getD 2 0))
         (u16le (payload.getD 7 0) (payload.getD 8 0))
         (payload.drop (1 + 8)) prev (by omega) (by omega) (by omega) (by omega)
         (by omega) (by omega)
       exact ⟨p, 0xFF, by rw [hp]⟩)
    | (right
       obtain ⟨p, hp⟩ := spw_ends (u16le (payload.getD 1 0) (payload.getD 2 0))
         (u16le (payload.getD 3 0) (payload.getD 4 0))
         (u16le (payload.getD 5 0) (payload.getD 6 0))
         (HEIGHT - u16le (payload.getD 3 0) (payload.getD 4 0))
         (payload.drop (1 + 8)) prev (by omega) (by omega) (by omega) (by omega)
         (by omega) (by omega)
       exact ⟨p, 0xFF, by rw [hp]⟩)
    | (right
       obtain ⟨p, hp⟩ := spw_ends (u16le (payload.getD 1 0) (payload.getD 2 0))
         (u16le (payload.getD 3 0) (payload.getD 4 0))
         (u16le (payload.getD 5 0) (payload.getD 6 0))
         (u16le (payload.getD 7 0) (payload.getD 8 0))
         (payload.drop (1 + 8)) prev (by omega) (by omega) (by omega) (by omega)
         (by omega) (by omega)
       exact ⟨p, 0xFF, by rw [hp]⟩))

/-! ## Helper lemmas: the rect patch of `prev_frame` -/

theorem set_getD (l : List Nat) (i j v : Nat) :
    (l.set i v).getD j 0 = if i = j ∧ i < l.length then v else l.getD j 0 := by
  rw [List.getD_eq_getElem?_getD, List.getD_eq_getElem?_getD, List.getElem?_set]
  by_cases h1 : i = j
  · subst h1
    by_cases h2 : i < l.length
    · simp [h2]
    · simp only [h2, if_true, if_false, and_true, and_false, ite_false, if_neg h2]
      simp [h2]
      rw [List.getElem?_eq_none (by omega)]
      rfl
  · simp [h1]

theorem copyRow_succ (d s : List Nat) (dOff sOff n : Nat) :
    copyRow d s dOff sOff (n + 1) =
      (copyRow d s dOff sOff n).set (dOff + n) (s.getD (sOff + n) 0) := by
  unfold copyRow
  rw [List.range_succ, List.foldl_append]
  simp

theorem copyRow_length (d s : List Nat) (dOff sOff n : Nat) :
    (copyRow d s dOff sOff n).length = d.length := by
  induction n with
  | zero => rfl
  | succ n ih => rw [copyRow_succ, List.length_set, ih]

theorem copyRow_getD (d s : List Nat) (dOff sOff n i : Nat) :
    (copyRow d s dOff sOff n).getD i 0 =
      if dOff ≤ i ∧ i < dOff + n ∧ i < d.length then s.getD (sOff + (i - dOff)) 0
      else d.getD i 0 := by
  induction n with
  | zero =>
    rw [if_neg (by omega)]
    rfl
  | succ n ih =>
    rw [copyRow_succ, set_getD, copyRow_length, ih]
    by_cases h1 : dOff + n = i ∧ dOff + n < d.length
    · rw [if_pos h1, if_pos (by omega)]
      congr 1
      omega
    · rw [if_neg h1]
      by_cases h2 : dOff ≤ i ∧ i < dOff + n ∧ i < d.length
      · rw [if_pos h2, if_pos (by omega)]
      · rw [if_neg h2, if_neg (by omega)]

theorem patchRect_succ (prev rect : List Nat) (x y wb h : Nat) :
    patchRect prev rect x y wb (h + 1) =
      copyRow (patchRect prev rect x y wb h) rect ((y + h) * BYTES_PER_ROW + x / 8)
        (h * wb) wb := by
  unfold patchRect
  rw [List.range_succ, List.foldl_append]
  simp

theorem patchRect_length (prev rect : List Nat) (x y wb h : Nat) :
    (patchRect prev rect x y wb h).length = prev.length := by
  induction h with
  | zero => rfl
  | succ h ih => rw [patchRect_succ, copyRow_length, ih]

theorem patchRect_getD (prev rect : List Nat) (x y wb h i : Nat)
    (hwb : x / 8 + wb ≤ 99) (hlen : prev.length = 26928) (hi : i < 26928) :
    (patchRect prev rect x y wb h).getD i 0 =
      if y ≤ i / 99 ∧ i / 99 < y + h ∧ x / 8 ≤ i % 99 ∧ i % 99 < x / 8 + wb then
        rect.getD ((i / 99 - y) * wb + (i % 99 - x / 8)) 0
      else prev.getD i 0 := by
  have hB : BYTES_PER_ROW = 99 := by norm_num [BYTES_PER_ROW, WIDTH]
  induction h with
  | zero =>
    rw [if_neg (by omega)]
    rfl
  | succ h ih =>
    rw [patchRect_succ, copyRow_getD, patchRect_length, hlen, ih, hB]
    by_cases h1 : (y + h) * 99 + x / 8 ≤ i ∧ i < (y + h) * 99 + x / 8 + wb ∧ i < 26928
    · rw [if_pos h1, if_pos (by omega)]
      have e1 : i / 99 - y = h := by omega
      have e2 : i % 99 - x / 8 = i - ((y + h) * 99 + x / 8) := by omega
      rw [e1, e2]
    · rw [if_neg h1]
      by_cases h2 : y ≤ i / 99 ∧ i / 99 < y + h ∧ x / 8 ≤ i % 99 ∧ i % 99 < x / 8 + wb
      · rw [if_pos h2, if_pos (by omega)]
      · rw [if_neg h2, if_neg (by omega)]

theorem byteLevelPatch_length (prev rect : List Nat) (x y wb h : Nat) :
    (byteLevelPatch prev rect x y wb h).length = prev.length := by
  simp [byteLevelPatch]

theorem byteLevelPatch_getD (prev rect : List Nat) (x y wb h i : Nat)
    (hi : i < prev.length) :
    (byteLevelPatch prev rect x y wb h).getD i 0 =
      if y ≤ i / BYTES_PER_ROW ∧ i / BYTES_PER_ROW < y + h ∧
          x / 8 ≤ i % BYTES_PER_ROW ∧ i % BYTES_PER_ROW < x / 8 + wb then
        rect.getD ((i / BYTES_PER_ROW - y) * wb + (i % BYTES_PER_ROW - x / 8)) 0
      else prev.getD i 0 := by
  unfold byteLevelPatch
  rw [List.getD_eq_getElem?_getD, List.getElem?_map, List.getElem?_range hi]
  simp

theorem patchRect_eq_byteLevelPatch (prev rect : List Nat) (x y wb h : Nat)
    (hwb : x / 8 + wb ≤ 99) (hlen : prev.length = FRAME_BYTES) :
    patchRect prev rect x y wb h = byteLevelPatch prev rect x y wb h := by
  have hB : BYTES_PER_ROW = 99 := by norm_num [BYTES_PER_ROW, WIDTH]
  have hFB : FRAME_BYTES = 26928 := by norm_num [FRAME_BYTES, BYTES_PER_ROW, WIDTH, HEIGHT]
  apply List.ext_getElem
  · rw [patchRect_length, byteLevelPatch_length]
  · intro i h1 h2
    have hi : i < 26928 := by
      rw [patchRect_length, hlen, hFB] at h1
      exact h1
    have g1 : (patchRect prev rect x y wb h)[i] = (patchRect prev rect x y wb h).getD i 0 := by
      rw [List.getD_eq_getElem?_getD, List.getElem?_eq_getElem h1]
      rfl
    have g2 : (byteLevelPatch prev rect x y wb h)[i] =
        (byteLevelPatch prev rect x y wb h).getD i 0 := by
      rw [List.getD_eq_getElem?_getD, List.getElem?_eq_getElem h2]
      rfl
    rw [g1, g2, patchRect_getD prev rect x y wb h i hwb (by omega) hi,
      byteLevelPatch_getD prev rect x y wb h i (by omega), hB]

set_option maxHeartbeats 1000000 in
/-- C3: rect patch equivalence.  When the application loop accepts a valid
rect frame (RECT flag set; alignment, bounds and length checks pass; width
and height taken after clamping), the new `prev_frame` equals the
byte-level patch of the old one with `rect_bytes` at `(x, y, w, h)` — every
byte inside the rectangle comes from `rect_bytes` at `(r-y)*(w/8)+(c-x/8)`
and every other byte is unchanged — and this holds both with and without
FORCE_FULL (the frame is ACKed either way). -/
theorem rect_patch_equivalence (prev rect : List Nat) (flags x y w h : Nat)
    (hrect : flags &&& FLAG_RECT ≠ 0)
    (hx16 : x < 2 ^ 16) (hy16 : y < 2 ^ 16) (hw16 : w < 2 ^ 16) (hh16 : h < 2 ^ 16)
    (hx8 : x % 8 = 0) (hw8 : w % 8 = 0) (hwpos : w ≠ 0) (hhpos : h ≠ 0)
    (hxW : x < WIDTH) (hyH : y < HEIGHT)
    (hlen : rect.length =
      ((if x + w > WIDTH then WIDTH - x else w) / 8) *
        (if y + h > HEIGHT then HEIGHT - y else h))
    (hprev : prev.length = FRAME_BYTES) :
    (applyPayload prev (flags :: (le2 x ++ le2 y ++ le2 w ++ le2 h ++ rect))).1 =
      byteLevelPatch prev rect x y ((if x + w > WIDTH then WIDTH - x else w) / 8)
        (if y + h > HEIGHT then HEIGHT - y else h) ∧
    serOf (applyPayload prev (flags :: (le2 x ++ le2 y ++ le2 w ++ le2 h ++ rect))).2 =
      [79, 75] := by
  have hW : WIDTH = 792 := by norm_num [WIDTH]
  have hH : HEIGHT = 272 := by norm_num [HEIGHT]
  have hg1 : (flags :: (le2 x ++ le2 y ++ le2 w ++ le2 h ++ rect)).getD 1 0 = x % 2 ^ 8 := rfl
  have hg2 : (flags :: (le2 x ++ le2 y ++ le2 w ++ le2 h ++ rect)).getD 2 0 =
      x / 2 ^ 8 % 2 ^ 8 := rfl
  have hg3 : (flags :: (le2 x ++ le2 y ++ le2 w ++ le2 h ++ rect)).getD 3 0 = y % 2 ^ 8 := rfl
  have hg4 : (flags :: (le2 x ++ le2 y ++ le2 w ++ le2 h ++ rect)).getD 4 0 =
      y / 2 ^ 8 % 2 ^ 8 := rfl
  have hg5 : (flags :: (le2 x ++ le2 y ++ le2 w ++ le2 h ++ rect)).getD 5 0 = w % 2 ^ 8 := rfl
  have hg6 : (flags :: (le2 x ++ le2 y ++ le2 w ++ le2 h ++ rect)).getD 6 0 =
      w / 2 ^ 8 % 2 ^ 8 := rfl
  have hg7 : (flags :: (le2 x ++ le2 y ++ le2 w ++ le2 h ++ rect)).getD 7 0 = h % 2 ^ 8 := rfl
  have hg8 : (flags :: (le2 x ++ le2 y ++ le2 w ++ le2 h ++ rect)).getD 8 0 =
      h / 2 ^ 8 % 2 ^ 8 := rfl
  have hg0 : (flags :: (le2 x ++ le2 y ++ le2 w ++ le2 h ++ rect)).getD 0 0 = flags := rfl
  have hplen : (flags :: (le2 x ++ le2 y ++ le2 w ++ le2 h ++ rect)).length =
      9 + rect.length := by
    simp [le2]
    omega
  have hdrop : (flags :: (le2 x ++ le2 y ++ le2 w ++ le2 h ++ rect)).drop (1 + 8) =
      rect := rfl
  have hwb99 : x / 8 + (if x + w > WIDTH then WIDTH - x else w) / 8 ≤ 99 := by
    split <;> omega
  simp only [applyPayload, hg0, hg1, hg2, hg3, hg4, hg5, hg6, hg7, hg8, hplen, hdrop]
  rw [u16le_le2 hx16, u16le_le2 hy16, u16le_le2 hw16, u16le_le2 hh16]
  rw [if_neg hrect]
  rw [if_neg (show ¬(9 + rect.length < 1 + 8) by omega)]
  rw [if_neg (show ¬(x % 8 ≠ 0 ∨ w % 8 ≠ 0) by simp [hx8, hw8])]
  rw [if_neg (show ¬(w = 0 ∨ h = 0) by simp [hwpos, hhpos])]
  rw [if_neg (show ¬(x ≥ WIDTH ∨ y ≥ HEIGHT) by push_neg; exact ⟨hxW, hyH⟩)]
  rw [if_neg (show ¬(9 + rect.length ≠ 1 + 8 +
    ((if x + w > WIDTH then WIDTH - x else w) / 8) *
      (if y + h > HEIGHT then HEIGHT - y else h)) by omega)]
  by_cases hf : flags &&& FLAG_FORCE_FULL ≠ 0
  · rw [if_pos hf]
    constructor
    · exact patchRect_eq_byteLevelPatch prev rect x y _ _ hwb99 hprev
    · rw [serOf_append, serOf_spi_map, serOf_OKbytes]
      rfl
  · rw [if_neg hf]
    constructor
    · exact patchRect_eq_byteLevelPatch prev rect x y _ _ hwb99 hprev
    · rw [serOf_append, serOf_spi_map, serOf_OKbytes]
      rfl

theorem rect_patch_equivalence_witness :
    (applyPayload (List.replicate 26928 255)
        (2 :: (le2 0 ++ le2 0 ++ le2 8 ++ le2 1 ++ [0]))).1 =
      byteLevelPatch (List.replicate 26928 255) [0] 0 0 1 1 ∧
    serOf (applyPayload (List.replicate 26928 255)
        (2 :: (le2 0 ++ le2 0 ++ le2 8 ++ le2 1 ++ [0]))).2 = [79, 75] :=
  rect_patch_equivalence (List.replicate 26928 255) [0] 2 0 0 8 1 (by decide) (by decide)
    (by decide) (by decide) (by decide) (by decide) (by decide) (by decide) (by decide)
    (by decide) (by decide) (by decide)
    (by norm_num [FRAME_BYTES, BYTES_PER_ROW, WIDTH, HEIGHT])
